import Mathlib

/-!
Verification development for the k6-balance-reader service.

The repository holds two near-duplicate implementations of the same
program: src/index.js and a second unnamed source file (src/unnamed/part_000).
Both compute the next payday (weekend- and holiday-adjusted), count the
weekdays remaining until it, scrape an account balance, and derive a
required top-up amount.

Shallow embedding conventions:
- A moment instant is a pair of a day number (days since 1970-01-01,
  local civil time) and a millisecond-of-day offset.  moment's day-of-week
  (0 = Sunday .. 6 = Saturday) is the day number plus 4 modulo 7, since
  1970-01-01 was a Thursday.
- Civil-date conversions (needed by set date-of-month and add month)
  follow the standard days-from-civil and civil-from-days algorithms,
  written with floor division on Int.
- The holiday calendar (the holidays-norway library) is a parameter of
  type Int -> List Int: for a year it returns the list of holiday dates
  as day numbers.  The source compares ISO date strings of calendar
  days; ISO strings of valid calendar days are in bijection with day
  numbers, so list membership of the day number is the faithful model.
- JS numbers carried by the program are modelled as rationals.  An
  Option wraps values that can be NaN or undefined in JS.
- moment diff with the days unit truncates the millisecond difference
  toward zero, which is Int.tdiv.
- The while loop of getNextPayDate has no bound in the source; it is
  embedded with explicit fuel, and termination (existence of sufficient
  fuel) is proved separately.
-/

/-- Milliseconds in one day. -/
def msPerDay : Int := 86400000

/-- A moment instant: day number since 1970-01-01 plus milliseconds within the day. -/
structure Instant where
  day : Int
  ms : Int
deriving DecidableEq

/-- Millisecond timestamp of an instant. -/
def toTs (i : Instant) : Int := i.day * msPerDay + i.ms

/-- moment day-of-week: 0 = Sunday .. 6 = Saturday.  Day 0 (1970-01-01) was a Thursday. -/
def dayOfWeek (d : Int) : Int := (d + 4) % 7

/-- The check [0, 6].includes(m.day()) used by both source files. -/
def isWeekendDay (d : Int) : Bool := dayOfWeek d == 0 || dayOfWeek d == 6

/-- Gregorian leap year. -/
def isLeapYear (y : Int) : Bool :=
  y % 4 == 0 && (y % 100 != 0 || y % 400 == 0)

/-- Number of days in a month (moment uses this to clamp when adding months). -/
def daysInMonth (y m : Int) : Int :=
  if m == 2 then (if isLeapYear y then 29 else 28)
  else if m == 4 || m == 6 || m == 9 || m == 11 then 30
  else 31

/-- Day number of a civil date (days-from-civil).  Linear in the day argument,
so an out-of-range day-of-month overflows into the adjacent month exactly as
the JS Date normalization behind moment set date does. -/
def daysFromCivil (y m d : Int) : Int :=
  let y2 := y - (if m ≤ 2 then 1 else 0)
  let era := Int.fdiv y2 400
  let yoe := y2 - era * 400
  let mp := (m + 9) % 12
  let doy := Int.fdiv (153 * mp + 2) 5 + d - 1
  let doe := yoe * 365 + Int.fdiv yoe 4 - Int.fdiv yoe 100 + doy
  era * 146097 + doe - 719468

/-- Civil date (year, month, day) of a day number (civil-from-days). -/
def civilFromDays (z0 : Int) : Int × Int × Int :=
  let z := z0 + 719468
  let era := Int.fdiv z 146097
  let doe := z - era * 146097
  let yoe := Int.fdiv (doe - Int.fdiv doe 1460 + Int.fdiv doe 36524 - Int.fdiv doe 146096) 365
  let y := yoe + era * 400
  let doy := doe - (365 * yoe + Int.fdiv yoe 4 - Int.fdiv yoe 100)
  let mp := Int.fdiv (5 * doy + 2) 153
  let d := doy - Int.fdiv (153 * mp + 2) 5 + 1
  let m := mp + (if mp < 10 then 3 else -9)
  (y + (if m ≤ 2 then 1 else 0), m, d)

/-- Year of a day number, as produced by the moment format Y used for the
holiday lookup. -/
def yearOf (d : Int) : Int := (civilFromDays d).1

/-- The candidate keeps the current milliseconds-of-second: the source zeroes
hour, minute and second but not the millisecond field. -/
def candMs (now : Instant) : Int := now.ms % 1000

/-- moment add one month: month advances, day-of-month clamps to the target
month length. -/
def addOneMonth (c : Int) : Int :=
  let t := civilFromDays c
  let y := if t.2.1 == 12 then t.1 + 1 else t.1
  let m := if t.2.1 == 12 then 1 else t.2.1 + 1
  daysFromCivil y m (min t.2.2 (daysInMonth y m))

/-- The unadjusted payday candidate of getNextPayDate: now with the day of
month replaced (overflowing into the next month when out of range) and the
time zeroed except milliseconds, advanced by one month when the candidate
instant is strictly before now. -/
def candidateDay (pd : Int) (now : Instant) : Int :=
  let c := civilFromDays now.day
  let cand0 := daysFromCivil c.1 c.2.1 pd
  if cand0 * msPerDay + candMs now < toTs now then addOneMonth cand0 else cand0

/-- Loop guard of getNextPayDate: holidayArray.includes(date) or weekend. -/
def excludedDay (H : List Int) (d : Int) : Bool := decide (d ∈ H) || isWeekendDay d

/-- The backward walk of getNextPayDate, with explicit fuel standing for the
unbounded while loop of the source. -/
def adjustBack (H : List Int) : Nat → Int → Option Int
  | 0, d => if excludedDay H d then none else some d
  | n + 1, d => if excludedDay H d then adjustBack H n (d - 1) else some d

/-- getNextPayDate of both source files: build the candidate, fetch the
holidays of the current year of now, then walk backward past holidays and
weekends.  The fuel models the unbounded while loop; none means the loop did
not finish within the given fuel. -/
def getNextPayDate (pd : Int) (cal : Int → List Int) (now : Instant) (fuel : Nat) :
    Option Instant :=
  (adjustBack (cal (yearOf now.day)) fuel (candidateDay pd now)).map
    (fun d => ⟨d, candMs now⟩)

/-- moment to.diff(from, days): millisecond difference truncated toward zero. -/
def diffDays (toM fromM : Instant) : Int := Int.tdiv (toTs toM - toTs fromM) msPerDay

/-- The counting loop shared by both implementations: given an iteration
count and the day the walking cursor starts at, return the weekday count and
the final cursor day.  Each iteration counts the cursor day when it is not a
Saturday or Sunday, then steps the cursor back one day. -/
def weekdayLoop : Nat → Int → Int × Int
  | 0, d => (0, d)
  | n + 1, d =>
    let rest := weekdayLoop n (d - 1)
    ((if isWeekendDay d then 0 else 1) + rest.1, rest.2)

/-- calculateWeekdaysBetweenDates of the part_000 file: the loop counter is
seeded from diff, the walking cursor is the to argument itself, which the
source mutates in place.  The embedding returns the count together with the
final value held by to after the call (state passing for the in-place
mutation). -/
def calculateWeekdaysBetweenDates (fromM toM : Instant) : Int × Instant :=
  let n := diffDays toM fromM
  let res := weekdayLoop (if 0 ≤ n then (n + 1).toNat else 0) toM.day
  (res.1, ⟨res.2, toM.ms⟩)

/-- calculateWeekdaysBetweenDates of index.js: the loop counter is seeded
from diff of the arguments, but the walking cursor is a freshly resolved
next pay date, not the to argument.  The fuel feeds the inner getNextPayDate
call. -/
def calculateWeekdaysBetweenDatesIndex (pd : Int) (cal : Int → List Int) (now : Instant)
    (fuel : Nat) (fromM toM : Instant) : Option Int :=
  (getNextPayDate pd cal now fuel).map (fun npd =>
    let n := diffDays toM fromM
    (weekdayLoop (if 0 ≤ n then (n + 1).toNat else 0) npd.day).1)

/-- Modelled from the claim wording, for refinement comparison: the count
over the inclusive range of daysBetween(from, to) + 1 calendar days obtained
by walking a cursor seeded at the date of to backward one day per iteration,
where a day contributes one exactly when the walking cursor is neither a
Saturday nor a Sunday. -/
def weekdaysSpecCount (fromM toM : Instant) : Int :=
  let n := diffDays toM fromM
  if 0 ≤ n then
    ((List.range (n + 1).toNat).countP (fun (i : Nat) => !isWeekendDay (toM.day - (i : Int))) : Int)
  else 0

/-- Digit character class of the patterns, by code point. -/
def isDigitChar (c : Char) : Bool := 48 ≤ c.toNat && c.toNat ≤ 57

/-- The class A to Z of the balance pattern under the i flag: both cases match. -/
def isAlphaChar (c : Char) : Bool :=
  (65 ≤ c.toNat && c.toNat ≤ 90) || (97 ≤ c.toNat && c.toNat ≤ 122)

/-- The JS dot character class: any character except line terminators. -/
def isDotChar (c : Char) : Bool :=
  !(c.toNat == 10 || c.toNat == 13 || c.toNat == 8232 || c.toNat == 8233)

/-- ASCII lowering for the case-insensitive literal part of the pattern. -/
def lowerNat (c : Char) : Nat :=
  if 65 ≤ c.toNat && c.toNat ≤ 90 then c.toNat + 32 else c.toNat

/-- Split a character list at its last space.  The currency group of the
balance pattern is alphabetic only, so the greedy first group always extends
to the last space of the remainder; the match succeeds exactly when that
unique split is valid. -/
def splitLastSpace : List Char → Option (List Char × List Char)
  | [] => none
  | c :: cs =>
    match splitLastSpace cs with
    | some (a, b) => some (c :: a, b)
    | none => if c == ' ' then some ([], cs) else none

/-- Group one of the balance pattern: a digit followed by one or more
arbitrary non-terminator characters. -/
def validBalanceAmount : List Char → Bool
  | [] => false
  | c :: rest => isDigitChar c && !rest.isEmpty && rest.all isDotChar

/-- Group two of the balance pattern: one to five letters. -/
def validCurrencyCode (g : List Char) : Bool :=
  decide (1 ≤ g.length) && decide (g.length ≤ 5) && g.all isAlphaChar

/-- The balance matcher of both source files, the pattern anchored Saldo
colon space, then a captured amount, a space and a captured currency code,
case-insensitively.  The result models the JS match array: entry zero is the
whole string, entries one and two the capture groups; out-of-range entries
are read as none (undefined). -/
def matchBalanceGroups (s : String) : Option (List (Option String)) :=
  let cs := s.data
  let pre := cs.take 7
  let rest := cs.drop 7
  if pre.map lowerNat = "saldo: ".data.map lowerNat then
    match splitLastSpace rest with
    | some (g1, g2) =>
      if validBalanceAmount g1 && validCurrencyCode g2 then
        some [some s, some (String.mk g1), some (String.mk g2)]
      else none
    | none => none
  else none

/-- Numeric value of a digit character. -/
def digitVal (c : Char) : Nat := c.toNat - 48

/-- Value of a digit string, as parseInt computes it on the date captures. -/
def natFromDigits (ds : List Char) : Nat := ds.foldl (fun a c => a * 10 + digitVal c) 0

/-- JS whitespace skipped by parseFloat, restricted to the ASCII range. -/
def isWsChar (c : Char) : Bool :=
  c.toNat == 32 || c.toNat == 9 || c.toNat == 10 || c.toNat == 13 ||
    c.toNat == 11 || c.toNat == 12

/-- JS parseFloat on decimal notation: optional leading whitespace, optional
sign, integer digits, optional fraction.  none models NaN (no digits at
all); parsing stops at the first character that does not fit, as parseFloat
does.  Exponent notation does not occur in the scraped balance texts and is
not modelled. -/
def parseFloat (s : String) : Option ℚ :=
  let cs := s.data.dropWhile isWsChar
  let sgn : ℚ × List Char :=
    match cs with
    | '-' :: t => (-1, t)
    | '+' :: t => (1, t)
    | _ => (1, cs)
  let intd := sgn.2.takeWhile isDigitChar
  let rest := sgn.2.dropWhile isDigitChar
  let frac :=
    match rest with
    | '.' :: t => t.takeWhile isDigitChar
    | _ => []
  if intd.isEmpty && frac.isEmpty then none
  else some (sgn.1 * ((natFromDigits intd : ℚ) + (natFromDigits frac : ℚ) / (10 : ℚ) ^ frac.length))

/-- parseFloat applied to a possibly undefined match entry: parseFloat of
undefined is NaN. -/
def jsParseFloatOpt : Option String → Option ℚ
  | some s => parseFloat s
  | none => none

/-- Read a maximal digit run of between lo and hi digits.  In the date
pattern every digit group is followed by a non-digit literal or the end, so
the greedy bounded quantifier matches exactly the maximal run when its
length is within bounds and fails otherwise. -/
def takeDigits (lo hi : Nat) (cs : List Char) : Option (Nat × List Char) :=
  let ds := cs.takeWhile isDigitChar
  let rest := cs.dropWhile isDigitChar
  if lo ≤ ds.length && ds.length ≤ hi then some (natFromDigits ds, rest) else none

/-- Consume one expected literal character. -/
def expectChar (c : Char) : List Char → Option (List Char)
  | [] => none
  | x :: xs => if x == c then some xs else none

/-- The date matcher of both source files: day dot month dot four-digit year
space hours colon minutes, anchored at both ends.  Returns the five numeric
captures after parseInt. -/
def matchDateGroups (s : String) : Option (Nat × Nat × Nat × Nat × Nat) := do
  let (d, r1) ← takeDigits 1 2 s.data
  let r2 ← expectChar '.' r1
  let (mo, r3) ← takeDigits 1 2 r2
  let r4 ← expectChar '.' r3
  let (y, r5) ← takeDigits 4 4 r4
  let r6 ← expectChar ' ' r5
  let (h, r7) ← takeDigits 1 2 r6
  let r8 ← expectChar ':' r7
  let (mi, r9) ← takeDigits 1 2 r8
  if r9.isEmpty then pure (d, mo, y, h, mi) else none

/-- The structured balance record produced by getK6Balance.  currentBalance
is an Option rational because a JS number can be NaN; balanceCurrencyUnit is
an Option string because reading a match entry can yield undefined.  The
last-top-up timestamp keeps the parsed civil components; the Date object and
its ISO serialization (which depend on the host timezone) are abstracted to
those components. -/
structure BalanceRecord where
  currentBalance : Option ℚ
  balanceCurrencyUnit : Option String
  lastDay : Nat
  lastMonth : Nat
  lastYear : Nat
  lastHour : Nat
  lastMinute : Nat
deriving DecidableEq

/-- The extraction part of getK6Balance in the part_000 file: both patterns
are tested before use and a failure returns false (none here).  The currency
unit is read from match entry eighty, far outside the pattern's two capture
groups, so it is always undefined. -/
def getK6BalancePart000 (balanceText dateText : String) : Option BalanceRecord :=
  match matchBalanceGroups balanceText with
  | none => none
  | some groups =>
    match matchDateGroups dateText with
    | none => none
    | some (d, mo, y, h, mi) =>
      some { currentBalance := jsParseFloatOpt (groups.getD 1 none)
             balanceCurrencyUnit := groups.getD 80 none
             lastDay := d, lastMonth := mo, lastYear := y, lastHour := h, lastMinute := mi }

/-- The extraction part of getK6Balance in index.js: no pattern test guards
the capture reads, so a non-matching text makes the indexing of the null
match result throw; none models that thrown exception.  The currency unit is
read from match entry two, the actual currency capture group. -/
def getK6BalanceIndex (balanceText dateText : String) : Option BalanceRecord :=
  match matchBalanceGroups balanceText with
  | none => none
  | some groups =>
    match matchDateGroups dateText with
    | none => none
    | some (d, mo, y, h, mi) =>
      some { currentBalance := jsParseFloatOpt (groups.getD 1 none)
             balanceCurrencyUnit := groups.getD 2 none
             lastDay := d, lastMonth := mo, lastYear := y, lastHour := h, lastMinute := mi }

/-- The JSON aggregate both handlers serialize. -/
structure BalanceReport where
  currentBalance : Option ℚ
  currentBalanceInNumberOfMeals : Int
  balanceCurrencyUnit : Option String
  weekdaysUntilNextPayment : Int
  pricePerMeal : ℚ
  mealsNeeded : Int
  topupNeeded : ℚ
  lastToppedUp : Nat × Nat × Nat × Nat × Nat
deriving DecidableEq

/-- Math.floor over the rationals. -/
def mathFloor (q : ℚ) : Int := ⌊q⌋

/-- The top-up arithmetic shared by both handlers (part_000 lines 44 to 57,
index.js lines 23 to 36): balance in meals is the floored quotient of the
balance by the price, meals needed is the weekday count minus it, and the
top-up is meals needed times the price, with no clamping and no guard on the
price.  A NaN balance is read as zero here; the balance capture group always
starts with a digit, so parseFloat never actually yields NaN on an extracted
record.  Rational division by zero yields zero rather than the JS infinity,
so statements about a zero price are avoided throughout. -/
def computeReport (b : BalanceRecord) (pricePerMeal : ℚ) (weekdaysUntilNextPayment : Int) :
    BalanceReport :=
  let amount := b.currentBalance.getD 0
  let balanceInNumberOfMeals := mathFloor (amount / pricePerMeal)
  let numberOfMealsNeeded := weekdaysUntilNextPayment - balanceInNumberOfMeals
  { currentBalance := b.currentBalance
    currentBalanceInNumberOfMeals := balanceInNumberOfMeals
    balanceCurrencyUnit := b.balanceCurrencyUnit
    weekdaysUntilNextPayment := weekdaysUntilNextPayment
    pricePerMeal := pricePerMeal
    mealsNeeded := numberOfMealsNeeded
    topupNeeded := (numberOfMealsNeeded : ℚ) * pricePerMeal
    lastToppedUp := (b.lastYear, b.lastMonth, b.lastDay, b.lastHour, b.lastMinute) }

/-- What a request handler sends: a report body or the error body. -/
inductive ResponseBody where
  | report (r : BalanceReport)
  | error (msg : String)
deriving DecidableEq

/-- The GET handler of the part_000 file: generateBalanceData fetches the
balance first and returns false when extraction fails, and the handler turns
that into the error body; otherwise the payday and weekday count are
computed and the report is sent.  The outer Option carries only the fuel of
the payday walk. -/
def appGetRootPart000 (pd : Int) (cal : Int → List Int) (now : Instant) (fuel : Nat)
    (balanceText dateText : String) (price : ℚ) : Option ResponseBody :=
  match getK6BalancePart000 balanceText dateText with
  | none => some (ResponseBody.error "Could not obtain account balance")
  | some b =>
    (getNextPayDate pd cal now fuel).map (fun npd =>
      ResponseBody.report (computeReport b price (calculateWeekdaysBetweenDates now npd).1))

/-- The GET handler of index.js: payday and weekday count first, then the
unguarded extraction; a pattern failure throws inside getK6Balance and no
response body is produced at all, which none models.  index.js multiplies
the meal count by the raw environment string for the top-up; for a numeric
environment value the coercion equals the parsed price used here. -/
def appGetRootIndex (pd : Int) (cal : Int → List Int) (now : Instant) (fuel : Nat)
    (balanceText dateText : String) (price : ℚ) : Option ResponseBody :=
  (getNextPayDate pd cal now fuel).bind (fun npd =>
    (calculateWeekdaysBetweenDatesIndex pd cal now fuel now npd).bind (fun weekdays =>
      (getK6BalanceIndex balanceText dateText).map (fun b =>
        ResponseBody.report (computeReport b price weekdays))))

/-- The configuration state after the startup lines of both source files:
the payment day is kept as the raw environment string and the price is
parseFloat of its environment string.  No validation of either value occurs
anywhere, and the server starts listening unconditionally right after. -/
structure LoadedConfig where
  paymentDayInMonth : String
  pricePerMeal : Option ℚ
deriving DecidableEq

/-- Startup of both source files, lines 7 to 12: read and parse, never
validate, never fail. -/
def loadConfig (paymentDayEnv pricePerMealEnv : String) : LoadedConfig :=
  { paymentDayInMonth := paymentDayEnv, pricePerMeal := parseFloat pricePerMealEnv }

/-- A concrete extracted record used by the evaluation theorems. -/
def recEx : BalanceRecord :=
  { currentBalance := some 130, balanceCurrencyUnit := some "NOK"
    lastDay := 1, lastMonth := 2, lastYear := 2023, lastHour := 10, lastMinute := 30 }

/-- A holiday calendar whose 2025 set holds New Year's Day 2025 (day number
20089) and whose other years are empty. -/
def calNewYear : Int → List Int := fun y => if y == 2025 then [20089] else []

/-- Minimum of a list of day numbers with a base value, used to bound the
backward walk. -/
def listMin : List Int → Int → Int
  | [], b => b
  | x :: xs, b => min x (listMin xs b)

theorem weekdayLoop_count (k : Nat) : ∀ d : Int, (weekdayLoop k d).1 =
    ((List.range k).countP (fun (i : Nat) => !isWeekendDay (d - (i : Int))) : Int) := by
  induction k with
  | zero => intro d; simp [weekdayLoop]
  | succ k ih =>
    intro d
    have hmap :
        List.countP (fun (i : Nat) => !isWeekendDay (d - (i : Int))) (List.map Nat.succ (List.range k)) =
        List.countP (fun (i : Nat) => !isWeekendDay (d - 1 - (i : Int))) (List.range k) := by
      rw [List.countP_map]
      apply List.countP_congr
      intro a _
      have harg : d - ((a : Int) + 1) = d - 1 - (a : Int) := by ring
      simp [Function.comp, Nat.succ_eq_add_one, Nat.cast_add, Nat.cast_one, harg]
    rw [List.range_succ_eq_map, List.countP_cons, hmap]
    simp only [weekdayLoop]
    rw [ih (d - 1)]
    cases hw : isWeekendDay d
    · simp [hw]
      ring
    · simp [hw]

theorem weekdayLoop_final (k : Nat) : ∀ d : Int, (weekdayLoop k d).2 = d - (k : Int) := by
  induction k with
  | zero => intro d; simp [weekdayLoop]
  | succ k ih =>
    intro d
    simp only [weekdayLoop]
    rw [ih (d - 1)]
    push_cast
    ring

theorem adjustBack_not_excluded (H : List Int) :
    ∀ (n : Nat) (d r : Int), adjustBack H n d = some r → excludedDay H r = false := by
  intro n
  induction n with
  | zero =>
    intro d r h
    by_cases hx : excludedDay H d = true
    · simp [adjustBack, hx] at h
    · rw [adjustBack, if_neg hx] at h
      cases h
      exact Bool.not_eq_true _ |>.mp hx
  | succ n ih =>
    intro d r h
    by_cases hx : excludedDay H d = true
    · rw [adjustBack, if_pos hx] at h
      exact ih _ _ h
    · rw [adjustBack, if_neg hx] at h
      cases h
      exact Bool.not_eq_true _ |>.mp hx

theorem isWeekendDay_third (d : Int) (h1 : isWeekendDay d = true)
    (h2 : isWeekendDay (d - 1) = true) : isWeekendDay (d - 2) = false := by
  simp only [isWeekendDay, dayOfWeek, Bool.or_eq_true, beq_iff_eq, Bool.or_eq_false_iff,
    beq_eq_false_iff_ne, ne_eq] at h1 h2 ⊢
  omega

theorem adjustBack_below (H : List Int) (d : Int) (hlt : ∀ h ∈ H, d < h) :
    ∃ r, adjustBack H 2 d = some r := by
  have base : ∀ e : Int, adjustBack H 0 e = if excludedDay H e then none else some e :=
    fun _ => rfl
  have step : ∀ (n : Nat) (e : Int),
      adjustBack H (n + 1) e = if excludedDay H e then adjustBack H n (e - 1) else some e :=
    fun _ _ => rfl
  have m0 : d ∉ H := fun hm => absurd (hlt d hm) (lt_irrefl d)
  have m1 : d - 1 ∉ H := fun hm => by have := hlt _ hm; omega
  have m2 : d - 2 ∉ H := fun hm => by have := hlt _ hm; omega
  by_cases w0 : isWeekendDay d = true
  · by_cases w1 : isWeekendDay (d - 1) = true
    · have w2 := isWeekendDay_third d w0 w1
      have e0 : excludedDay H d = true := by simp [excludedDay, w0]
      have e1 : excludedDay H (d - 1) = true := by simp [excludedDay, w1]
      have e2 : excludedDay H (d - 2) = false := by simp [excludedDay, m2, w2]
      refine ⟨d - 2, ?_⟩
      rw [show (2 : Nat) = 1 + 1 from rfl, step, if_pos e0, step, if_pos e1, base]
      rw [show d - 1 - 1 = d - 2 by ring, if_neg (by simp [e2])]
    · have e0 : excludedDay H d = true := by simp [excludedDay, w0]
      have e1 : excludedDay H (d - 1) = false := by
        simp [excludedDay, m1, Bool.not_eq_true _ |>.mp w1]
      refine ⟨d - 1, ?_⟩
      rw [show (2 : Nat) = 1 + 1 from rfl, step, if_pos e0, step, if_neg (by simp [e1])]
  · have e0 : excludedDay H d = false := by
      simp [excludedDay, m0, Bool.not_eq_true _ |>.mp w0]
    refine ⟨d, ?_⟩
    rw [show (2 : Nat) = 1 + 1 from rfl, step, if_neg (by simp [e0])]

theorem adjustBack_main (H : List Int) :
    ∀ (k : Nat) (d : Int), (∀ h ∈ H, d - (k : Int) < h) → ∃ r, adjustBack H (k + 2) d = some r := by
  intro k
  induction k with
  | zero =>
    intro d hlt
    exact adjustBack_below H d (by intro h hm; have := hlt h hm; simpa using this)
  | succ k ih =>
    intro d hlt
    have step : adjustBack H (k + 1 + 2) d =
        if excludedDay H d then adjustBack H (k + 2) (d - 1) else some d := rfl
    by_cases hx : excludedDay H d = true
    · obtain ⟨r, hr⟩ := ih (d - 1) (by
        intro h hm
        have := hlt h hm
        push_cast at this ⊢
        omega)
      exact ⟨r, by rw [step, if_pos hx]; exact hr⟩
    · exact ⟨d, by rw [step, if_neg hx]⟩

theorem listMin_le_base : ∀ (l : List Int) (b : Int), listMin l b ≤ b := by
  intro l
  induction l with
  | nil => intro b; simp [listMin]
  | cons x xs ih => intro b; exact le_trans (min_le_right x _) (ih b)

theorem listMin_le_mem : ∀ (l : List Int) (b x : Int), x ∈ l → listMin l b ≤ x := by
  intro l
  induction l with
  | nil => intro b x hx; simp at hx
  | cons y ys ih =>
    intro b x hx
    rcases List.mem_cons.mp hx with h | h
    · subst h; exact min_le_left _ _
    · exact le_trans (min_le_right y _) (ih b x h)

theorem adjustBack_terminates (H : List Int) (d : Int) : ∃ n r, adjustBack H n d = some r := by
  refine ⟨(d - listMin H d + 1).toNat + 2, ?_⟩
  apply adjustBack_main
  intro h hm
  have h1 := listMin_le_mem H d h hm
  have h2 := listMin_le_base H d
  have h3 : ((d - listMin H d + 1).toNat : Int) = d - listMin H d + 1 :=
    Int.toNat_of_nonneg (by omega)
  omega

/-- C1 (counterexample): with the current moment 2024-12-31 (day 20088), a
configured payment day 1 and a calendar whose 2025 set holds New Year's Day
2025 (day 20089), getNextPayDate returns 2025-01-01, a Wednesday that is a
member of the holiday set for the returned date's year: the walk only
consults the holidays fetched for the year of now (2024), so the claim that
the returned date is never in the holiday set for its own year fails once
the candidate crosses the year boundary. -/
theorem claim_C1_counterexample :
    getNextPayDate 1 calNewYear ⟨20088, 0⟩ 5 = some ⟨20089, 0⟩ ∧
    (20089 : Int) ∈ calNewYear (yearOf 20089) ∧
    isWeekendDay 20089 = false := by
  refine ⟨by decide, by decide, by decide⟩

/-- C1 (amended): whenever the backward walk of getNextPayDate finishes, the
returned date is never a Saturday, never a Sunday, and never a member of the
holiday set fetched for the current year, the year of now; membership in the
holiday set of the returned date's own year is not excluded when the walk
has crossed a year boundary. -/
theorem claim_C1_next_pay_date_invariant (pd : Int) (cal : Int → List Int) (now : Instant)
    (fuel : Nat) (r : Instant) (h : getNextPayDate pd cal now fuel = some r) :
    dayOfWeek r.day ≠ 0 ∧ dayOfWeek r.day ≠ 6 ∧ r.day ∉ cal (yearOf now.day) := by
  unfold getNextPayDate at h
  rw [Option.map_eq_some'] at h
  obtain ⟨d, hd, hr⟩ := h
  have hex := adjustBack_not_excluded _ _ _ _ hd
  have hday : r.day = d := by rw [← hr]
  simp only [excludedDay, isWeekendDay, Bool.or_eq_false_iff, decide_eq_false_iff_not,
    beq_eq_false_iff_ne, ne_eq] at hex
  rw [hday]
  exact ⟨hex.2.1, hex.2.2, hex.1⟩

/-- C1 (witness): the invariant instantiated at the current moment
2024-12-31, payment day 15 and an empty calendar, where the walk returns
2025-01-15 (day 20103), a Wednesday. -/
theorem claim_C1_witness :
    dayOfWeek 20103 ≠ 0 ∧ dayOfWeek 20103 ≠ 6 ∧
    (20103 : Int) ∉ (fun _ : Int => ([] : List Int)) (yearOf 20088) :=
  claim_C1_next_pay_date_invariant 15 (fun _ => []) ⟨20088, 0⟩ 5 ⟨20103, 0⟩ (by decide)

/-- C2 (counterexample): the index.js implementation evaluates weekday-ness
of a separately resolved payday rather than of the walking cursor seeded at
the to argument.  With from and to both 1970-01-03 (day 2, a Saturday) and
the resolved payday 1970-01-01 (day 0, a Thursday), index.js counts 1 while
the claimed count over the cursor seeded at to is 0. -/
theorem claim_C2_counterexample :
    calculateWeekdaysBetweenDatesIndex 1 (fun _ => []) ⟨0, 0⟩ 3 ⟨2, 0⟩ ⟨2, 0⟩ = some 1 ∧
    weekdaysSpecCount ⟨2, 0⟩ ⟨2, 0⟩ = 0 := by
  refine ⟨by decide, by decide⟩

/-- C2 (amended): the part_000 implementation of calculateWeekdaysBetweenDates
does return, for every pair of instants, the count over the inclusive range
of daysBetween plus one calendar days obtained by walking a cursor seeded at
the date of to backward one day per iteration, counting a day exactly when
the walking cursor is neither a Saturday nor a Sunday.  The index.js variant
satisfies this only when its separately resolved payday coincides with to. -/
theorem claim_C2_part000_counts_walking_cursor (fromM toM : Instant) :
    (calculateWeekdaysBetweenDates fromM toM).1 = weekdaysSpecCount fromM toM := by
  unfold calculateWeekdaysBetweenDates weekdaysSpecCount
  by_cases h : 0 ≤ diffDays toM fromM
  · simp only [h, if_true]
    rw [weekdayLoop_count]
  · simp [h, weekdayLoop]

/-- C3: behavior of the two request handlers when the balance text matches
no pattern.  The part_000 handler produces exactly the error body, never a
partial report; the index.js handler indexes into a null match result, the
thrown error aborts the request and no JSON body of any form is produced,
refuting the claim for that file. -/
theorem claim_C3_extraction_failure_behavior :
    appGetRootIndex 1 (fun _ => []) ⟨0, 0⟩ 3 "bogus" "01.02.2023 10:30" 25 = none ∧
    appGetRootPart000 1 (fun _ => []) ⟨0, 0⟩ 3 "bogus" "01.02.2023 10:30" 25 =
      some (ResponseBody.error "Could not obtain account balance") :=
  ⟨rfl, rfl⟩

/-- C4: on the successfully matching balance text Saldo colon 100 NOK, the
part_000 extractor reads the currency from match entry eighty, which is
undefined, so the produced record's currency unit is not a string matching
the currency pattern at all; the index.js extractor reads capture group two
and yields NOK, and the parsed amount is the non-negative 100. -/
theorem claim_C4_currency_group_eighty :
    (getK6BalancePart000 "Saldo: 100 NOK" "01.02.2023 10:30").map
      (fun b => b.balanceCurrencyUnit) = some none ∧
    (getK6BalanceIndex "Saldo: 100 NOK" "01.02.2023 10:30").map
      (fun b => b.balanceCurrencyUnit) = some (some "NOK") ∧
    (getK6BalancePart000 "Saldo: 100 NOK" "01.02.2023 10:30").map
      (fun b => b.currentBalance) = some (some 100) := by
  refine ⟨rfl, rfl, ?_⟩
  have h : (getK6BalancePart000 "Saldo: 100 NOK" "01.02.2023 10:30").map
      (fun b => b.currentBalance) =
      some (some ((1 : ℚ) * (((100 : Nat) : ℚ) + ((0 : Nat) : ℚ) / (10 : ℚ) ^ (0 : Nat)))) := rfl
  rw [h]
  norm_num

/-- C5: the top-up arithmetic has no guard on the price: with the price
minus 25, balance 130 and three weekdays remaining it produces a plain
numeric report (balance in meals minus 6, meals needed 9, top-up minus 225)
instead of the domain error the claim requires. -/
theorem claim_C5_no_price_guard :
    (computeReport recEx (-25) 3).currentBalanceInNumberOfMeals = -6 ∧
    (computeReport recEx (-25) 3).mealsNeeded = 9 ∧
    (computeReport recEx (-25) 3).topupNeeded = -225 := by
  norm_num [computeReport, recEx, mathFloor]

/-- C6: for every record holding a non-negative amount, every positive
price and every weekday count, computeReport returns the floored quotient as
the balance in meals, the weekday count minus it as meals needed, and meals
needed times the price as the top-up, unclamped. -/
theorem claim_C6_compute_report_formulas (b : BalanceRecord) (a p : ℚ) (w : Int)
    (hb : b.currentBalance = some a) (ha : 0 ≤ a) (hp : 0 < p) :
    (computeReport b p w).currentBalanceInNumberOfMeals = ⌊a / p⌋ ∧
    (computeReport b p w).mealsNeeded = w - ⌊a / p⌋ ∧
    (computeReport b p w).topupNeeded = ((w : ℚ) - (⌊a / p⌋ : ℚ)) * p := by
  refine ⟨?_, ?_, ?_⟩
  · simp [computeReport, mathFloor, hb]
  · simp [computeReport, mathFloor, hb]
  · simp only [computeReport, mathFloor, hb, Option.getD_some]
    push_cast
    ring

/-- C6 (witness): price 25, amount 130 and three weekdays yield balance in
meals 5, meals needed minus 2 and top-up minus 50, the negative results
returned unclamped. -/
theorem claim_C6_witness :
    (computeReport recEx 25 3).currentBalanceInNumberOfMeals = 5 ∧
    (computeReport recEx 25 3).mealsNeeded = -2 ∧
    (computeReport recEx 25 3).topupNeeded = -50 := by
  obtain ⟨h1, h2, h3⟩ := claim_C6_compute_report_formulas recEx 130 25 3 rfl
    (by norm_num) (by norm_num)
  refine ⟨?_, ?_, ?_⟩
  · rw [h1]; norm_num
  · rw [h2]; norm_num
  · rw [h3]; norm_num

/-- C7: the startup lines parse the environment values and never validate
them; a payment day of 99 and a price of minus 5 load into a running
configuration without any failure, refuting the fail-fast claim. -/
theorem claim_C7_startup_never_validates :
    loadConfig "99" "-5" =
      { paymentDayInMonth := "99", pricePerMeal := some (-5) } := by
  have h : parseFloat "-5" =
      some ((-1 : ℚ) * (((5 : Nat) : ℚ) + ((0 : Nat) : ℚ) / (10 : ℚ) ^ (0 : Nat))) := rfl
  simp only [loadConfig, LoadedConfig.mk.injEq, h]
  norm_num

/-- C8 (counterexample): with from at 1970-01-06 00:01 (day 5) and to at
1970-01-05 23:59 (day 4), to's calendar date is strictly before from's, yet
the truncated millisecond difference is 0, the loop runs once, and the count
is 1 rather than the claimed 0. -/
theorem claim_C8_counterexample :
    (Instant.mk 4 86340000).day < (Instant.mk 5 60000).day ∧
    (calculateWeekdaysBetweenDates ⟨5, 60000⟩ ⟨4, 86340000⟩).1 = 1 := by
  refine ⟨by decide, by decide⟩

/-- C8 (amended): whenever the truncated day difference of the two instants
is negative, which holds exactly when to's timestamp is at least one full
day before from's, the loop of calculateWeekdaysBetweenDates performs zero
iterations and the result is the defined value 0 with the to argument left
untouched; a date-only comparison with a gap under twenty-four hours does
not guarantee this. -/
theorem claim_C8_zero_when_diff_negative (fromM toM : Instant)
    (h : diffDays toM fromM < 0) :
    calculateWeekdaysBetweenDates fromM toM = (0, toM) := by
  unfold calculateWeekdaysBetweenDates
  have h2 : ¬ (0 ≤ diffDays toM fromM) := by omega
  simp [h2, weekdayLoop]

/-- C8 (witness): the zero result at to five full days before from. -/
theorem claim_C8_witness :
    diffDays ⟨5, 0⟩ ⟨10, 0⟩ < 0 ∧
    calculateWeekdaysBetweenDates ⟨10, 0⟩ ⟨5, 0⟩ = (0, ⟨5, 0⟩) :=
  ⟨by decide, claim_C8_zero_when_diff_negative ⟨10, 0⟩ ⟨5, 0⟩ (by decide)⟩

/-- C9 (counterexample): calculateWeekdaysBetweenDates mutates its to
argument in place: called with from and to both at day 2, the to object is
left holding day 1, not its original value. -/
theorem claim_C9_counterexample :
    (calculateWeekdaysBetweenDates ⟨2, 0⟩ ⟨2, 0⟩).2 = ⟨1, 0⟩ ∧
    (Instant.mk 1 0) ≠ (Instant.mk 2 0) := by
  refine ⟨by decide, by decide⟩

/-- C9 (amended): the from argument is never touched by the source, but the
to argument is mutated in place: after the call it holds a date diff plus
one days earlier than before whenever the truncated day difference diff is
non-negative, and its original value only when diff is negative.  The
time-of-day component of to is preserved. -/
theorem claim_C9_to_mutation (fromM toM : Instant) :
    (calculateWeekdaysBetweenDates fromM toM).2 =
      ⟨toM.day - (if 0 ≤ diffDays toM fromM then diffDays toM fromM + 1 else 0), toM.ms⟩ := by
  unfold calculateWeekdaysBetweenDates
  by_cases h : 0 ≤ diffDays toM fromM
  · simp only [h, if_true]
    rw [weekdayLoop_final]
    rw [Int.toNat_of_nonneg (by omega)]
  · simp [h, weekdayLoop]

/-- C10: for every configured day, every holiday calendar and every current
moment there is a fuel making the backward walk of getNextPayDate finish:
the calendar returns a list, hence a finite holiday set, below whose minimum
only weekends can exclude a day, and no three consecutive days are all
weekend. -/
theorem claim_C10_backward_walk_terminates (pd : Int) (cal : Int → List Int) (now : Instant) :
    ∃ (fuel : Nat) (r : Instant), getNextPayDate pd cal now fuel = some r := by
  obtain ⟨n, r, hr⟩ := adjustBack_terminates (cal (yearOf now.day)) (candidateDay pd now)
  exact ⟨n, ⟨r, candMs now⟩, by unfold getNextPayDate; rw [hr]; rfl⟩
